import Mathlib

/-!
Verification of the telraam-data-collector core pipeline.

This file gives a shallow embedding of the collector's data model and
operations and proves the specified properties about them.

Sources embedded from code:
  - `src/services/Storage.ts` (Storage facade: saveMonthlyData, loadMonthlyData,
    saveDailyData, loadDailyData, getTotalHourlyDataPoints, removeLegacyMonthlyFile)
  - `src/services/PathManager.ts` (path construction)
  - `src/collector.ts` (DataCollector: collectAllDevices, collectSingleDevice,
    saveDeviceData, createSummary, getLatestDataTimestamp)

The DataMerger and FileService implementations are not part of the provided
sources (only their callers are), so `mergeReadings` / `mergeDataPoints`,
`mergeDailyEntries`, `groupByMonth`, `buildDailyEntries` and the file-system
primitives are modelled from the specification, as noted on each definition.

File I/O is modelled by an explicit `FileSystem` state threaded through the
storage operations; fallible writes take an explicit success flag standing for
the outcome of the underlying `writeJson` call.
-/

/-- Hourly traffic reading for one device, one date and one hour
(the `TrafficDataPoint` of `src/types.ts`, fields as listed in the spec's
data model and the README example). Counts are integers; `uptime` and `v85`
are rationals standing in for the JSON numbers. -/
structure TrafficDataPoint where
  date : String
  hour : Nat
  uptime : Rat
  heavy : Int
  car : Int
  bike : Int
  pedestrian : Int
  heavy_lft : Int
  car_lft : Int
  bike_lft : Int
  pedestrian_lft : Int
  heavy_rgt : Int
  car_rgt : Int
  bike_rgt : Int
  pedestrian_rgt : Int
  direction : Int
  timezone : String
  v85 : Option Rat
deriving DecidableEq

/-- Daily rollup entry: per-day totals of the counting fields, aggregate
uptime and the number of hours covered (spec data model, `DailyEntry`). -/
structure DailyEntry where
  date : String
  uptime : Rat
  heavy : Int
  car : Int
  bike : Int
  pedestrian : Int
  heavy_lft : Int
  car_lft : Int
  bike_lft : Int
  pedestrian_lft : Int
  heavy_rgt : Int
  car_rgt : Int
  bike_rgt : Int
  pedestrian_rgt : Int
  hours_covered : Nat
deriving DecidableEq

/-- Persisted monthly file (`MonthlyData` in `src/types.ts`). -/
structure MonthlyData where
  device_id : String
  month : String
  data : List TrafficDataPoint
  lastUpdated : String
deriving DecidableEq

/-- Persisted daily-aggregate file (`DailyData` in `src/types.ts`). -/
structure DailyData where
  device_id : String
  month : String
  days : List DailyEntry
  lastUpdated : String
deriving DecidableEq

/-- Device directory record stored in `devices.json`. -/
structure DeviceMetadata where
  id : String
  name : String
  location : String
  lastUpdated : String
  totalDataPoints : Nat
deriving DecidableEq

/-- Configured device (`DeviceConfig` in `src/types.ts`). -/
structure DeviceConfig where
  id : String
  name : String
  location : String
deriving DecidableEq

/-- Per-device collection result (`CollectionResult` in `src/types.ts`):
`lastUpdated` and `error` are optional fields in TypeScript, hence `Option`. -/
structure CollectionResult where
  deviceId : String
  success : Bool
  dataPointsCollected : Nat
  lastUpdated : Option String
  error : Option String
deriving DecidableEq

/-- Run summary (`CollectionSummary` in `src/types.ts`), as built by
`DataCollector.createSummary`; the start/end wall-clock strings are
carried as opaque data. -/
structure CollectionSummary where
  totalDevices : Nat
  successfulDevices : Nat
  failedDevices : Nat
  results : List CollectionResult
  startTime : String
  endTime : String
deriving DecidableEq

/-! ### Generic last-write-wins keyed merge

Modelled from the spec (§4.1): `mergeReadings` "builds a keyed map from
`existing` ordered by (date,hour); for every item in `incoming`, in order,
overwrite the map entry at that key (incoming wins on conflict); return all
entries sorted ascending by (date,hour)", and `mergeDailyEntries` has the
"same last-write-wins-by-key (key = date) semantics". Both are instances of
the keyed merge below. The map is represented as an association list with
unique keys; the final sort makes its internal order irrelevant. -/

/-- Modelled from the spec: overwrite-or-append a single entry in a keyed
map (the `map.set` step of `mergeReadings`; `DataMerger.ts` is not among
the provided sources). -/
def insertKeyed {α κ : Type} [DecidableEq κ] (key : α → κ) : List α → α → List α
  | [], p => [p]
  | q :: rest, p => if key q = key p then p :: rest else q :: insertKeyed key rest p

/-- Modelled from the spec: build the keyed map from a list, later entries
overwriting earlier ones at the same key (the dedupe step of `mergeReadings`;
`DataMerger.ts` is not among the provided sources). -/
def buildKeyedMap {α κ : Type} [DecidableEq κ] (key : α → κ) (ps : List α) : List α :=
  ps.foldl (insertKeyed key) []

/-- Insertion into a key-sorted list, used by the final sort step. -/
def insertSorted {α κ : Type} [LinearOrder κ] (key : α → κ) (p : α) : List α → List α
  | [] => [p]
  | q :: rest => if key p ≤ key q then p :: q :: rest else q :: insertSorted key p rest

/-- Modelled from the spec: sort a list ascending by key (the final sort of
`mergeReadings`; `DataMerger.ts` is not among the provided sources). -/
def sortByKey {α κ : Type} [LinearOrder κ] (key : α → κ) (ps : List α) : List α :=
  ps.foldr (insertSorted key) []

/-- Modelled from the spec: the generic last-write-wins merge — keyed map
from `existing`, overwritten in order by `incoming`, result sorted ascending
by key (`DataMerger.ts` is not among the provided sources). -/
def mergeKeyed {α κ : Type} [LinearOrder κ] [DecidableEq κ] (key : α → κ)
    (existing incoming : List α) : List α :=
  sortByKey key (incoming.foldl (insertKeyed key) (buildKeyedMap key existing))

/-- Lookup of the first entry with the given key in an association list. -/
def findByKey {α κ : Type} [DecidableEq κ] (key : α → κ) (x : κ) : List α → Option α
  | [] => none
  | q :: rest => if key q = x then some q else findByKey key x rest

/-- Last entry of a list carrying the given key, if any. -/
def lastWithKey {α κ : Type} [DecidableEq κ] (key : α → κ) (ps : List α) (x : κ) : Option α :=
  findByKey key x ps.reverse

/-- Natural key of a reading: the (date, hour) pair, ordered
lexicographically (dates are ISO `YYYY-MM-DD` strings, so string order is
chronological order). -/
def dataPointKey (p : TrafficDataPoint) : Lex (String × Nat) :=
  toLex (p.date, p.hour)

/-- Modelled from the spec: `mergeReadings(existing, incoming)` — the
last-write-wins merge of hourly readings keyed by (date, hour)
(`DataMerger.ts` is not among the provided sources). -/
def mergeReadings (existing incoming : List TrafficDataPoint) : List TrafficDataPoint :=
  mergeKeyed dataPointKey existing incoming

/-- Modelled from the spec: `DataMerger.mergeDataPoints(deviceId, existing,
incoming)` as called from `Storage.saveMonthlyData`; the device id is used
only for logging and does not influence the result
(`DataMerger.ts` is not among the provided sources). -/
def mergeDataPoints (_deviceId : String)
    (existing incoming : List TrafficDataPoint) : List TrafficDataPoint :=
  mergeReadings existing incoming

/-- Key of a daily entry: its calendar date. -/
def dailyKey (e : DailyEntry) : String :=
  e.date

/-- Modelled from the spec: `mergeDailyEntries(existing, incoming)` — same
last-write-wins-by-key semantics as `mergeReadings` with key = date, result
sorted ascending by date (`DataMerger.ts` is not among the provided
sources). -/
def mergeDailyEntries (existing incoming : List DailyEntry) : List DailyEntry :=
  mergeKeyed dailyKey existing incoming

/-- Month key of a reading: the first 7 characters of its date (`YYYY-MM`). -/
def monthKey (p : TrafficDataPoint) : String :=
  p.date.take 7

/-- Append an element to its group in an insertion-ordered grouped list
(models one step of filling a JavaScript `Map` of arrays). -/
def insertGrouped {α κ : Type} [DecidableEq κ] (key : α → κ)
    (groups : List (κ × List α)) (p : α) : List (κ × List α) :=
  match groups with
  | [] => [(key p, [p])]
  | (m, ps) :: rest =>
    if m = key p then (m, ps ++ [p]) :: rest else (m, ps) :: insertGrouped key rest p

/-- Generic grouping preserving encounter order within each group. -/
def groupByKey {α κ : Type} [DecidableEq κ] (key : α → κ) (xs : List α) : List (κ × List α) :=
  xs.foldl (insertGrouped key) []

/-- Parseability of a reading's date under the run's date parser (the
oracle standing for JavaScript `new Date(s)`, `none` meaning invalid). -/
def hasParseableDate (parseDate : String → Option Int) (p : TrafficDataPoint) : Bool :=
  (parseDate p.date).isSome

/-- Modelled from the spec: `groupByMonth(readings)` — mapping from month
key (first 7 characters of the date) to the readings of that month, order
preserved as encountered; readings with an unparseable date are excluded
from grouping rather than crashing the pipeline (log-and-skip, spec 4.1
edge cases and 7) (`DataMerger.ts` is not among the provided sources). -/
def groupByMonth (parseDate : String → Option Int) (readings : List TrafficDataPoint) :
    List (String × List TrafficDataPoint) :=
  groupByKey monthKey (readings.filter (hasParseableDate parseDate))

/-- Sum of the elements of a list of rationals. -/
def ratSum (xs : List Rat) : Rat :=
  xs.foldl (· + ·) 0

/-- Modelled from the spec: the rollup of one date's readings — counting
fields summed across the hours, `hours_covered` the number of hours present,
`uptime` the arithmetic mean (`DataMerger.ts` is not among the provided
sources). -/
def buildDailyEntry (date : String) (pts : List TrafficDataPoint) : DailyEntry :=
  { date := date
    uptime := ratSum (pts.map (·.uptime)) / (pts.length : Rat)
    heavy := (pts.map (·.heavy)).sum
    car := (pts.map (·.car)).sum
    bike := (pts.map (·.bike)).sum
    pedestrian := (pts.map (·.pedestrian)).sum
    heavy_lft := (pts.map (·.heavy_lft)).sum
    car_lft := (pts.map (·.car_lft)).sum
    bike_lft := (pts.map (·.bike_lft)).sum
    pedestrian_lft := (pts.map (·.pedestrian_lft)).sum
    heavy_rgt := (pts.map (·.heavy_rgt)).sum
    car_rgt := (pts.map (·.car_rgt)).sum
    bike_rgt := (pts.map (·.bike_rgt)).sum
    pedestrian_rgt := (pts.map (·.pedestrian_rgt)).sum
    hours_covered := pts.length }

/-- Modelled from the spec: `buildDailyEntries(readings)` — group by date,
roll up each group, emit one entry per date ascending; readings with an
unparseable date are excluded from aggregation (log-and-skip, spec 4.1
edge cases and 7) (`DataMerger.ts` is not among the provided sources). -/
def buildDailyEntries (parseDate : String → Option Int)
    (readings : List TrafficDataPoint) : List DailyEntry :=
  sortByKey dailyKey
    ((groupByKey (fun p : TrafficDataPoint => p.date)
        (readings.filter (hasParseableDate parseDate))).map
      (fun g => buildDailyEntry g.1 g.2))

/-! ### PathManager (`src/services/PathManager.ts`)

Path construction, with `path.join` modelled as joining the segments with
`/` (all segments produced by the program are plain names, so no
normalisation applies). Constants are those of `src/utils/constants.ts`
(`FILESYSTEM`). -/

/-- Device directory prefix (`FILESYSTEM.DEVICE_DIR_PREFIX`). -/
def deviceDirPrefix : String := "device_"

/-- Hourly subdirectory name (`FILESYSTEM.HOURLY_DIR`). -/
def hourlyDirName : String := "hourly"

/-- Daily subdirectory name (`FILESYSTEM.DAILY_DIR`). -/
def dailyDirName : String := "daily"

/-- Metadata file name (`FILESYSTEM.DEVICES_FILE`). -/
def devicesFileName : String := "devices.json"

/-- PathManager.getDeviceDirectory. -/
def getDeviceDirectory (dataDir deviceId : String) : String :=
  dataDir ++ "/" ++ deviceDirPrefix ++ deviceId

/-- PathManager.getHourlyDirectory. -/
def getHourlyDirectory (dataDir deviceId : String) : String :=
  getDeviceDirectory dataDir deviceId ++ "/" ++ hourlyDirName

/-- PathManager.getHourlyFilePath. -/
def getHourlyFilePath (dataDir deviceId month : String) : String :=
  getDeviceDirectory dataDir deviceId ++ "/" ++ hourlyDirName ++ "/" ++ month ++ ".json"

/-- PathManager.getDailyFilePath. -/
def getDailyFilePath (dataDir deviceId month : String) : String :=
  getDeviceDirectory dataDir deviceId ++ "/" ++ dailyDirName ++ "/" ++ month ++ ".json"

/-- PathManager.getLegacyMonthlyFilePath. -/
def getLegacyMonthlyFilePath (dataDir deviceId month : String) : String :=
  getDeviceDirectory dataDir deviceId ++ "/" ++ month ++ ".json"

/-- PathManager.getDeviceMetadataPath. -/
def getDeviceMetadataPath (dataDir : String) : String :=
  dataDir ++ "/" ++ devicesFileName

/-! ### File-system model

Modelled from the spec: `FileService.ts` is not among the provided sources;
its `readJson` / `writeJson` / `collectJsonFiles` / `deleteFile` operations
are modelled over an explicit file-system state. Monthly, legacy-monthly and
daily files are keyed by (deviceId, month), mirroring the on-disk layout
`<dataDir>/device_<id>/hourly/<month>.json`,
`<dataDir>/device_<id>/<month>.json` and
`<dataDir>/device_<id>/daily/<month>.json`. `hourlyDirs` lists the device
ids whose hourly directory exists (absence makes `collectJsonFiles` fail
with `ENOENT`). -/
structure FileSystem where
  hourlyDirs : List String
  hourlyFiles : List ((String × String) × MonthlyData)
  legacyFiles : List ((String × String) × MonthlyData)
  dailyFiles : List ((String × String) × DailyData)
  metadata : Option (List DeviceMetadata)
  landingPageGenerated : Bool
deriving DecidableEq

/-- Lookup in an association store by key. -/
def fsGet {β : Type} (files : List ((String × String) × β)) (k : String × String) : Option β :=
  (files.find? (fun f => decide (f.1 = k))).map (·.2)

/-- Remove the entry with the given key, if present. -/
def fsErase {β : Type} (files : List ((String × String) × β)) (k : String × String) :
    List ((String × String) × β) :=
  files.filter (fun f => decide (f.1 ≠ k))

/-- Whole-file replacing write into an association store. -/
def fsSet {β : Type} (files : List ((String × String) × β)) (k : String × String) (v : β) :
    List ((String × String) × β) :=
  (k, v) :: fsErase files k

/-! ### Storage (`src/services/Storage.ts`) -/

/-- Storage.loadMonthlyData: read the current hourly location first
and only on a miss fall back to the legacy location. -/
def loadMonthlyData (fs : FileSystem) (deviceId month : String) : Option MonthlyData :=
  match fsGet fs.hourlyFiles (deviceId, month) with
  | some primary => some primary
  | none => fsGet fs.legacyFiles (deviceId, month)

/-- Storage.removeLegacyMonthlyFile: delete the legacy file unless the
legacy path coincides with the new path. -/
def removeLegacyMonthlyFile (dataDir : String) (fs : FileSystem)
    (deviceId month : String) (newPath : String) : FileSystem :=
  let legacyPath := getLegacyMonthlyFilePath dataDir deviceId month
  if legacyPath = newPath then fs
  else { fs with legacyFiles := fsErase fs.legacyFiles (deviceId, month) }

/-- Storage.saveMonthlyData: load existing data for (deviceId, month),
merge via `mergeDataPoints`, write the merged file with a fresh
`lastUpdated`, then remove the legacy file. A failing `writeJson`
(modelled by `writeOk = false`) raises the wrapped error before the legacy
delete is reached and leaves the file system unchanged. -/
def saveMonthlyData (dataDir : String) (fs : FileSystem) (deviceId : String)
    (monthlyData : MonthlyData) (now : String) (writeOk : Bool) :
    Except String Unit × FileSystem :=
  let filePath := getHourlyFilePath dataDir deviceId monthlyData.month
  let existingData := loadMonthlyData fs deviceId monthlyData.month
  let mergedData := mergeDataPoints deviceId
    (match existingData with
     | some e => e.data
     | none => []) monthlyData.data
  let updatedMonthlyData : MonthlyData :=
    { device_id := deviceId
      month := monthlyData.month
      data := mergedData
      lastUpdated := now }
  if writeOk then
    let fs1 := { fs with
      hourlyFiles := fsSet fs.hourlyFiles (deviceId, monthlyData.month) updatedMonthlyData }
    (Except.ok (), removeLegacyMonthlyFile dataDir fs1 deviceId monthlyData.month filePath)
  else
    (Except.error ("Failed to save monthly data: write failed for " ++ deviceId), fs)

/-- Storage.loadDailyData. -/
def loadDailyData (fs : FileSystem) (deviceId month : String) : Option DailyData :=
  fsGet fs.dailyFiles (deviceId, month)

/-- Storage.saveDailyData: load the existing daily file, merge via
`mergeDailyEntries`, write with a fresh `lastUpdated`; a failing write
(modelled by `writeOk = false`) raises the wrapped error and leaves the
file system unchanged. -/
def saveDailyData (fs : FileSystem) (deviceId month : String)
    (entries : List DailyEntry) (now : String) (writeOk : Bool) :
    Except String Unit × FileSystem :=
  let existing := loadDailyData fs deviceId month
  let merged := mergeDailyEntries
    (match existing with
     | some e => e.days
     | none => []) entries
  let dailyData : DailyData :=
    { device_id := deviceId
      month := month
      days := merged
      lastUpdated := now }
  if writeOk then
    (Except.ok (), { fs with dailyFiles := fsSet fs.dailyFiles (deviceId, month) dailyData })
  else
    (Except.error ("Failed to save daily data: write failed for " ++ deviceId), fs)

/-- FileService.collectJsonFiles over the hourly directory of a device:
fails with `ENOENT` when the directory does not exist, otherwise returns
the monthly files stored in it. -/
def collectHourlyJsonFiles (fs : FileSystem) (deviceId : String) :
    Except String (List ((String × String) × MonthlyData)) :=
  if fs.hourlyDirs.contains deviceId then
    Except.ok (fs.hourlyFiles.filter (fun f => decide (f.1.1 = deviceId)))
  else
    Except.error "ENOENT"

/-- Storage.getTotalHourlyDataPoints: enumerate the monthly files in the
device's hourly directory, summing `data.length` of each; a missing
directory (`ENOENT`) is not an error and yields 0. -/
def getTotalHourlyDataPoints (fs : FileSystem) (deviceId : String) : Nat :=
  match collectHourlyJsonFiles fs deviceId with
  | Except.error _ => 0
  | Except.ok files => files.foldl (fun total f => total + f.2.data.length) 0

/-- Storage.loadDeviceMetadata: empty list when no metadata file exists. -/
def loadDeviceMetadata (fs : FileSystem) : List DeviceMetadata :=
  match fs.metadata with
  | some data => data
  | none => []

/-- Storage.saveDeviceMetadata: wholesale overwrite of the metadata file. -/
def saveDeviceMetadata (fs : FileSystem) (devices : List DeviceMetadata) : FileSystem :=
  { fs with metadata := some devices }

/-- Storage.generateLandingPage: regenerates `index.html`; only the fact
that it ran is observed by the model. -/
def generateLandingPage (fs : FileSystem) : FileSystem :=
  { fs with landingPageGenerated := true }

/-! ### DataCollector (`src/collector.ts`) -/

/-- Environment of one collector run: the fetch outcome per device id (the
injected client, retries included), write outcomes of the monthly and daily
`writeJson` calls per (deviceId, month), an oracle for JavaScript
`new Date(s)` parsing (`none` models an invalid date), and the current
time's ISO string. -/
structure CollectorEnv where
  fetch : String → Except String (List TrafficDataPoint)
  monthlyWriteOk : String → String → Bool
  dailyWriteOk : String → String → Bool
  parseDate : String → Option Int
  now : String

/-- DataCollector.getLatestDataTimestamp: reduce over the points, keeping
the date whose parsed time is the largest; empty dates and unparseable
dates are skipped, and an unparseable current latest is replaced. -/
def getLatestDataTimestamp (env : CollectorEnv) (dataPoints : List TrafficDataPoint) :
    Option String :=
  dataPoints.foldl
    (fun latest point =>
      if point.date = "" then latest
      else
        match env.parseDate point.date with
        | none => latest
        | some pointTime =>
          match latest with
          | none => some point.date
          | some l =>
            match env.parseDate l with
            | none => some point.date
            | some latestTime =>
              if pointTime > latestTime then some point.date else latest)
    none

/-- Loop body of DataCollector.saveDeviceData over the month groups:
save monthly then daily for each month, accumulating the group sizes;
a failing save stops the loop and surfaces the error, keeping the
file-system changes made so far. -/
def saveDeviceDataLoop (env : CollectorEnv) (dataDir deviceId : String)
    (fs : FileSystem) (total : Nat) :
    List (String × List TrafficDataPoint) → (Except String Nat × FileSystem)
  | [] => (Except.ok total, fs)
  | (month, monthData) :: rest =>
    let monthlyData : MonthlyData :=
      { device_id := deviceId
        month := month
        data := monthData
        lastUpdated := env.now }
    match saveMonthlyData dataDir fs deviceId monthlyData env.now
        (env.monthlyWriteOk deviceId month) with
    | (Except.error e, fs1) => (Except.error e, fs1)
    | (Except.ok _, fs1) =>
      let dailyEntries := buildDailyEntries env.parseDate monthData
      match saveDailyData fs1 deviceId month dailyEntries env.now
          (env.dailyWriteOk deviceId month) with
      | (Except.error e, fs2) => (Except.error e, fs2)
      | (Except.ok _, fs2) =>
        saveDeviceDataLoop env dataDir deviceId fs2 (total + monthData.length) rest

/-- DataCollector.saveDeviceData: group the fetched points by month and
save each month's hourly file and daily aggregates, returning the total
number of points across the groups. -/
def saveDeviceData (env : CollectorEnv) (dataDir deviceId : String)
    (fs : FileSystem) (dataPoints : List TrafficDataPoint) :
    Except String Nat × FileSystem :=
  saveDeviceDataLoop env dataDir deviceId fs 0 (groupByMonth env.parseDate dataPoints)

/-- DataCollector.collectSingleDevice: fetch, then (for a non-empty batch)
group-and-save; any raised error is caught and converted into a failed
result for this device only. -/
def collectSingleDevice (env : CollectorEnv) (dataDir : String)
    (fs : FileSystem) (device : DeviceConfig) : CollectionResult × FileSystem :=
  match env.fetch device.id with
  | Except.error e =>
    ({ deviceId := device.id
       success := false
       dataPointsCollected := 0
       lastUpdated := none
       error := some e }, fs)
  | Except.ok dataPoints =>
    let lastDataTimestamp := getLatestDataTimestamp env dataPoints
    if dataPoints.length = 0 then
      ({ deviceId := device.id
         success := true
         dataPointsCollected := 0
         lastUpdated := lastDataTimestamp
         error := none }, fs)
    else
      match saveDeviceData env dataDir device.id fs dataPoints with
      | (Except.ok totalPoints, fs1) =>
        ({ deviceId := device.id
           success := true
           dataPointsCollected := totalPoints
           lastUpdated := lastDataTimestamp
           error := none }, fs1)
      | (Except.error e, fs1) =>
        ({ deviceId := device.id
           success := false
           dataPointsCollected := 0
           lastUpdated := none
           error := some e }, fs1)

/-- Lookup into the map built by `new Map(existingMetadata.map(m => [m.id, m]))`:
with duplicate ids the later entry wins, hence the search over the
reversed list. -/
def previousMetadataById (existingMetadata : List DeviceMetadata) (id : String) :
    Option DeviceMetadata :=
  existingMetadata.reverse.find? (fun meta => decide (meta.id = id))

/-- Metadata entry appended for a device after its collection step:
`result.lastUpdated ?? previous?.lastUpdated ?? new Date().toISOString()`
with `totalDataPoints` recomputed from storage. -/
def mkDeviceMetadata (env : CollectorEnv) (existingMetadata : List DeviceMetadata)
    (device : DeviceConfig) (result : CollectionResult) (totalStoredPoints : Nat) :
    DeviceMetadata :=
  { id := device.id
    name := device.name
    location := device.location
    lastUpdated :=
      result.lastUpdated.getD
        (((previousMetadataById existingMetadata device.id).map
          (·.lastUpdated)).getD env.now)
    totalDataPoints := totalStoredPoints }

/-- Per-device loop of DataCollector.collectAllDevices: collect each device
in order, recompute its stored total, and append its result and metadata
entry (the inter-device delay has no observable effect in the model). -/
def collectLoop (env : CollectorEnv) (dataDir : String)
    (existingMetadata : List DeviceMetadata) (fs : FileSystem) :
    List DeviceConfig → List CollectionResult × List DeviceMetadata × FileSystem
  | [] => ([], [], fs)
  | device :: rest =>
    let step := collectSingleDevice env dataDir fs device
    let totalStoredPoints := getTotalHourlyDataPoints step.2 device.id
    let meta := mkDeviceMetadata env existingMetadata device step.1 totalStoredPoints
    let next := collectLoop env dataDir existingMetadata step.2 rest
    (step.1 :: next.1, meta :: next.2.1, next.2.2)

/-- DataCollector.createSummary. -/
def createSummary (results : List CollectionResult) (startTime endTime : String) :
    CollectionSummary :=
  { totalDevices := results.length
    successfulDevices := (results.filter (fun r => r.success)).length
    failedDevices := (results.filter (fun r => !r.success)).length
    results := results
    startTime := startTime
    endTime := endTime }

/-- Observable outcome of one run of DataCollector.collectAllDevices: the
summary it builds and logs, the final file-system state, and the returned
value — `Except.error` models the throw raised when any device failed. -/
structure RunOutcome where
  summary : CollectionSummary
  finalFs : FileSystem
  outcome : Except String CollectionSummary

/-- DataCollector.collectAllDevices: load prior metadata, process every
device sequentially, save the full metadata list, regenerate the landing
page, build the summary, and finally throw when any device failed. -/
def collectAllDevices (env : CollectorEnv) (dataDir : String)
    (fs : FileSystem) (devices : List DeviceConfig) : RunOutcome :=
  let existingMetadata := loadDeviceMetadata fs
  let loopOut := collectLoop env dataDir existingMetadata fs devices
  let results := loopOut.1
  let deviceMetadata := loopOut.2.1
  let fs1 := saveDeviceMetadata loopOut.2.2 deviceMetadata
  let fs2 := generateLandingPage fs1
  let summary := createSummary results env.now env.now
  { summary := summary
    finalFs := fs2
    outcome :=
      if summary.failedDevices > 0 then
        Except.error ("Collection completed with " ++
          toString summary.failedDevices ++ " error(s)")
      else
        Except.ok summary }

/-! ### Lemmas about the keyed map -/

/-- First-hit choice between two options. -/
def optOr {β : Type} : Option β → Option β → Option β
  | some a, _ => some a
  | none, b => b

/-- Key-uniqueness invariant of the association lists used as keyed maps. -/
def KeysNodup {α κ : Type} (key : α → κ) (l : List α) : Prop :=
  (l.map key).Nodup

theorem mem_insertKeyed {α κ : Type} [DecidableEq κ] (key : α → κ)
    {m : List α} {p a : α} (h : a ∈ insertKeyed key m p) : a ∈ m ∨ a = p := by
  induction m with
  | nil => simpa [insertKeyed] using h
  | cons q rest ih =>
    simp only [insertKeyed] at h
    by_cases hqp : key q = key p
    · rw [if_pos hqp] at h
      rcases List.mem_cons.mp h with h1 | h1
      · exact Or.inr h1
      · exact Or.inl (List.mem_cons_of_mem _ h1)
    · rw [if_neg hqp] at h
      rcases List.mem_cons.mp h with h1 | h1
      · exact Or.inl (h1 ▸ List.mem_cons_self _ _)
      · rcases ih h1 with h2 | h2
        · exact Or.inl (List.mem_cons_of_mem _ h2)
        · exact Or.inr h2

theorem findByKey_insertKeyed {α κ : Type} [DecidableEq κ] (key : α → κ)
    (m : List α) (p : α) (x : κ) :
    findByKey key x (insertKeyed key m p) =
      if x = key p then some p else findByKey key x m := by
  induction m with
  | nil =>
    simp only [insertKeyed, findByKey]
    by_cases h : key p = x
    · rw [if_pos h, if_pos h.symm]
    · rw [if_neg h, if_neg (fun hh => h hh.symm)]
  | cons q rest ih =>
    simp only [insertKeyed]
    by_cases hqp : key q = key p
    · rw [if_pos hqp]
      simp only [findByKey]
      by_cases hx : x = key p
      · rw [if_pos hx, if_pos hx.symm]
      · rw [if_neg (fun hh => hx hh.symm), if_neg hx,
          if_neg (fun hh => hx (hh.symm.trans hqp))]
    · rw [if_neg hqp]
      simp only [findByKey, ih]
      by_cases hqx : key q = x
      · rw [if_pos hqx, if_neg (fun hh => hqp (hqx.trans hh)), if_pos hqx]
      · rw [if_neg hqx]
        by_cases hx : x = key p
        · rw [if_pos hx, if_pos hx]
        · rw [if_neg hx, if_neg hx, if_neg hqx]

theorem keysNodup_insertKeyed {α κ : Type} [DecidableEq κ] (key : α → κ)
    {m : List α} (p : α) (h : KeysNodup key m) :
    KeysNodup key (insertKeyed key m p) := by
  induction m with
  | nil => simp [insertKeyed, KeysNodup]
  | cons q rest ih =>
    simp only [KeysNodup, List.map_cons, List.nodup_cons] at h
    by_cases hqp : key q = key p
    · simp only [KeysNodup, insertKeyed, if_pos hqp, List.map_cons, List.nodup_cons]
      exact ⟨fun hmem => h.1 (hqp ▸ hmem), h.2⟩
    · simp only [KeysNodup, insertKeyed, if_neg hqp, List.map_cons, List.nodup_cons]
      refine ⟨fun hmem => ?_, ih h.2⟩
      rcases List.mem_map.mp hmem with ⟨a, ha, hka⟩
      rcases mem_insertKeyed key ha with h1 | h1
      · exact h.1 (hka ▸ List.mem_map_of_mem key h1)
      · exact hqp (hka ▸ h1 ▸ rfl)

theorem mem_foldl_insertKeyed {α κ : Type} [DecidableEq κ] (key : α → κ)
    {L : List α} : ∀ {m : List α} {a : α},
    a ∈ L.foldl (insertKeyed key) m → a ∈ m ∨ a ∈ L := by
  induction L with
  | nil => intro m a h; exact Or.inl h
  | cons b L ih =>
    intro m a h
    simp only [List.foldl_cons] at h
    rcases ih h with h1 | h1
    · rcases mem_insertKeyed key h1 with h2 | h2
      · exact Or.inl h2
      · exact Or.inr (h2 ▸ List.mem_cons_self _ _)
    · exact Or.inr (List.mem_cons_of_mem _ h1)

theorem keysNodup_foldl_insertKeyed {α κ : Type} [DecidableEq κ] (key : α → κ)
    (L : List α) : ∀ {m : List α}, KeysNodup key m →
    KeysNodup key (L.foldl (insertKeyed key) m) := by
  induction L with
  | nil => intro m h; exact h
  | cons b L ih =>
    intro m h
    exact ih (keysNodup_insertKeyed key b h)

theorem findByKey_append {α κ : Type} [DecidableEq κ] (key : α → κ)
    (x : κ) (l₁ l₂ : List α) :
    findByKey key x (l₁ ++ l₂) = optOr (findByKey key x l₁) (findByKey key x l₂) := by
  induction l₁ with
  | nil => simp [findByKey, optOr]
  | cons q rest ih =>
    simp only [List.cons_append, findByKey]
    by_cases h : key q = x
    · rw [if_pos h, if_pos h]; rfl
    · rw [if_neg h, if_neg h]; exact ih

theorem findByKey_foldl_insertKeyed {α κ : Type} [DecidableEq κ] (key : α → κ)
    (x : κ) (L : List α) : ∀ m : List α,
    findByKey key x (L.foldl (insertKeyed key) m) =
      optOr (lastWithKey key L x) (findByKey key x m) := by
  induction L with
  | nil => intro m; simp [lastWithKey, findByKey, optOr]
  | cons b L ih =>
    intro m
    simp only [List.foldl_cons, ih, lastWithKey, List.reverse_cons, findByKey_append,
      findByKey_insertKeyed]
    simp only [findByKey]
    by_cases h : key b = x
    · rw [if_pos h, if_pos h.symm]
      cases findByKey key x L.reverse <;> rfl
    · rw [if_neg h, if_neg (fun hh => h hh.symm)]
      cases findByKey key x L.reverse <;> rfl

theorem findByKey_eq_some_imp {α κ : Type} [DecidableEq κ] (key : α → κ)
    {x : κ} {p : α} : ∀ {l : List α}, findByKey key x l = some p → p ∈ l ∧ key p = x := by
  intro l
  induction l with
  | nil => intro h; cases h
  | cons q rest ih =>
    intro h
    simp only [findByKey] at h
    by_cases hq : key q = x
    · rw [if_pos hq] at h
      cases h
      exact ⟨List.mem_cons_self _ _, hq⟩
    · rw [if_neg hq] at h
      rcases ih h with ⟨h1, h2⟩
      exact ⟨List.mem_cons_of_mem _ h1, h2⟩

theorem findByKey_eq_none_iff {α κ : Type} [DecidableEq κ] (key : α → κ)
    {x : κ} : ∀ {l : List α}, findByKey key x l = none ↔ ∀ p ∈ l, key p ≠ x := by
  intro l
  induction l with
  | nil => simp [findByKey]
  | cons q rest ih =>
    simp only [findByKey]
    by_cases hq : key q = x
    · rw [if_pos hq]
      constructor
      · intro h
        cases h
      · intro h
        exact absurd hq (h q (List.mem_cons_self _ _))
    · rw [if_neg hq, ih]
      constructor
      · intro h p hp
        rcases List.mem_cons.mp hp with h1 | h1
        · exact h1 ▸ hq
        · exact h p h1
      · intro h p hp
        exact h p (List.mem_cons_of_mem _ hp)

theorem findByKey_eq_some_iff {α κ : Type} [DecidableEq κ] (key : α → κ)
    {x : κ} {p : α} : ∀ {l : List α}, KeysNodup key l →
    (findByKey key x l = some p ↔ p ∈ l ∧ key p = x) := by
  intro l
  induction l with
  | nil => intro _; simp [findByKey]
  | cons q rest ih =>
    intro hnd
    simp only [KeysNodup, List.map_cons, List.nodup_cons] at hnd
    simp only [findByKey]
    by_cases hq : key q = x
    · rw [if_pos hq]
      constructor
      · intro h
        cases h
        exact ⟨List.mem_cons_self _ _, hq⟩
      · rintro ⟨hmem, hkey⟩
        rcases List.mem_cons.mp hmem with h1 | h1
        · rw [h1]
        · exact absurd (hkey.trans hq.symm ▸ List.mem_map_of_mem key h1) hnd.1
    · rw [if_neg hq, ih hnd.2]
      constructor
      · rintro ⟨hmem, hkey⟩
        exact ⟨List.mem_cons_of_mem _ hmem, hkey⟩
      · rintro ⟨hmem, hkey⟩
        rcases List.mem_cons.mp hmem with h1 | h1
        · exact absurd (h1 ▸ hkey) hq
        · exact ⟨h1, hkey⟩

theorem insertSorted_perm {α κ : Type} [LinearOrder κ] (key : α → κ)
    (p : α) (l : List α) : List.Perm (insertSorted key p l) (p :: l) := by
  induction l with
  | nil => exact List.Perm.refl _
  | cons q rest ih =>
    simp only [insertSorted]
    by_cases h : key p ≤ key q
    · rw [if_pos h]
    · rw [if_neg h]
      exact (ih.cons q).trans (List.Perm.swap p q rest)

theorem pairwise_insertSorted {α κ : Type} [LinearOrder κ] (key : α → κ)
    (p : α) {l : List α} (h : l.Pairwise (fun a b => key a ≤ key b)) :
    (insertSorted key p l).Pairwise (fun a b => key a ≤ key b) := by
  induction l with
  | nil => simp [insertSorted]
  | cons q rest ih =>
    rcases List.pairwise_cons.mp h with ⟨hq, hrest⟩
    simp only [insertSorted]
    by_cases hle : key p ≤ key q
    · rw [if_pos hle]
      refine List.pairwise_cons.mpr ⟨?_, h⟩
      intro b hb
      rcases List.mem_cons.mp hb with h1 | h1
      · rw [h1]; exact hle
      · exact hle.trans (hq b h1)
    · rw [if_neg hle]
      refine List.pairwise_cons.mpr ⟨?_, ih hrest⟩
      intro b hb
      rcases List.mem_cons.mp ((insertSorted_perm key p rest).mem_iff.mp hb) with h1 | h1
      · rw [h1]; exact (not_le.mp hle).le
      · exact hq b h1

theorem sortByKey_perm {α κ : Type} [LinearOrder κ] (key : α → κ)
    (l : List α) : List.Perm (sortByKey key l) l := by
  induction l with
  | nil => exact List.Perm.refl _
  | cons a l ih =>
    simp only [sortByKey, List.foldr_cons]
    exact (insertSorted_perm key a _).trans (ih.cons a)

theorem sortByKey_pairwise {α κ : Type} [LinearOrder κ] (key : α → κ)
    (l : List α) : (sortByKey key l).Pairwise (fun a b => key a ≤ key b) := by
  induction l with
  | nil => simp [sortByKey]
  | cons a l ih =>
    simp only [sortByKey, List.foldr_cons]
    exact pairwise_insertSorted key a ih

theorem keysNodup_of_perm {α κ : Type} (key : α → κ) {l₁ l₂ : List α}
    (hp : List.Perm l₁ l₂) (h : KeysNodup key l₁) : KeysNodup key l₂ :=
  (hp.map key).nodup_iff.mp h

theorem pairwise_lt_of_le_of_keysNodup {α κ : Type} [LinearOrder κ] (key : α → κ)
    {l : List α} (hle : l.Pairwise (fun a b => key a ≤ key b))
    (hnd : KeysNodup key l) : l.Pairwise (fun a b => key a < key b) := by
  have hne : l.Pairwise (fun a b => key a ≠ key b) := List.pairwise_map.mp hnd
  exact (hle.and hne).imp (fun hab => lt_of_le_of_ne hab.1 hab.2)

theorem perm_of_keysNodup_of_findByKey_eq {α κ : Type} [DecidableEq κ] (key : α → κ)
    {l₁ l₂ : List α} (h₁ : KeysNodup key l₁) (h₂ : KeysNodup key l₂)
    (h : ∀ x, findByKey key x l₁ = findByKey key x l₂) : List.Perm l₁ l₂ := by
  refine (List.perm_ext_iff_of_nodup (h₁.of_map key) (h₂.of_map key)).mpr (fun a => ?_)
  constructor
  · intro ha
    have h1 : findByKey key (key a) l₁ = some a :=
      (findByKey_eq_some_iff key h₁).mpr ⟨ha, rfl⟩
    have h2 : findByKey key (key a) l₂ = some a := (h (key a)) ▸ h1
    exact ((findByKey_eq_some_iff key h₂).mp h2).1
  · intro ha
    have h1 : findByKey key (key a) l₂ = some a :=
      (findByKey_eq_some_iff key h₂).mpr ⟨ha, rfl⟩
    have h2 : findByKey key (key a) l₁ = some a := (h (key a)).symm ▸ h1
    exact ((findByKey_eq_some_iff key h₁).mp h2).1

theorem sortByKey_eq_of_perm {α κ : Type} [LinearOrder κ] (key : α → κ)
    {l₁ l₂ : List α} (hp : List.Perm l₁ l₂) (h₁ : KeysNodup key l₁) :
    sortByKey key l₁ = sortByKey key l₂ := by
  have h₂ : KeysNodup key l₂ := keysNodup_of_perm key hp h₁
  have hs₁ : KeysNodup key (sortByKey key l₁) :=
    keysNodup_of_perm key (sortByKey_perm key l₁).symm h₁
  have hs₂ : KeysNodup key (sortByKey key l₂) :=
    keysNodup_of_perm key (sortByKey_perm key l₂).symm h₂
  have s₁ := pairwise_lt_of_le_of_keysNodup key (sortByKey_pairwise key l₁) hs₁
  have s₂ := pairwise_lt_of_le_of_keysNodup key (sortByKey_pairwise key l₂) hs₂
  have hperm : List.Perm (sortByKey key l₁) (sortByKey key l₂) :=
    (sortByKey_perm key l₁).trans (hp.trans (sortByKey_perm key l₂).symm)
  haveI antis : IsAntisymm α (fun a b : α => key a < key b ∨ a = b) :=
    ⟨fun a b hab hba => by
      rcases hab with h1 | h1
      · rcases hba with h2 | h2
        · exact absurd (h1.trans h2) (lt_irrefl _)
        · exact h2.symm
      · exact h1⟩
  have s₁' : (sortByKey key l₁).Pairwise (fun a b : α => key a < key b ∨ a = b) :=
    s₁.imp (fun h => Or.inl h)
  have s₂' : (sortByKey key l₂).Pairwise (fun a b : α => key a < key b ∨ a = b) :=
    s₂.imp (fun h => Or.inl h)
  exact List.eq_of_perm_of_sorted hperm s₁' s₂'

theorem mergeKeyed_map_keysNodup {α κ : Type} [LinearOrder κ] [DecidableEq κ] (key : α → κ)
    (existing incoming : List α) :
    KeysNodup key (incoming.foldl (insertKeyed key) (buildKeyedMap key existing)) :=
  keysNodup_foldl_insertKeyed key incoming
    (keysNodup_foldl_insertKeyed key existing (by simp [KeysNodup]))

theorem mergeKeyed_keysNodup {α κ : Type} [LinearOrder κ] [DecidableEq κ] (key : α → κ)
    (existing incoming : List α) : KeysNodup key (mergeKeyed key existing incoming) :=
  keysNodup_of_perm key (sortByKey_perm key _).symm
    (mergeKeyed_map_keysNodup key existing incoming)

theorem mergeKeyed_pairwise_lt {α κ : Type} [LinearOrder κ] [DecidableEq κ] (key : α → κ)
    (existing incoming : List α) :
    (mergeKeyed key existing incoming).Pairwise (fun a b => key a < key b) :=
  pairwise_lt_of_le_of_keysNodup key (sortByKey_pairwise key _)
    (mergeKeyed_keysNodup key existing incoming)

theorem lastWithKey_eq_none_iff {α κ : Type} [DecidableEq κ] (key : α → κ)
    {x : κ} {l : List α} : lastWithKey key l x = none ↔ ∀ p ∈ l, key p ≠ x := by
  rw [lastWithKey, findByKey_eq_none_iff]
  constructor
  · intro h p hp
    exact h p (List.mem_reverse.mpr hp)
  · intro h p hp
    exact h p (List.mem_reverse.mp hp)

theorem mergeKeyed_lww {α κ : Type} [LinearOrder κ] [DecidableEq κ] (key : α → κ)
    {existing incoming : List α} {x : κ} {q : α}
    (h : lastWithKey key incoming x = some q) :
    q ∈ mergeKeyed key existing incoming ∧
      ∀ r ∈ mergeKeyed key existing incoming, key r = x → r = q := by
  have hM : KeysNodup key (incoming.foldl (insertKeyed key) (buildKeyedMap key existing)) :=
    mergeKeyed_map_keysNodup key existing incoming
  have hfind : findByKey key x
      (incoming.foldl (insertKeyed key) (buildKeyedMap key existing)) = some q := by
    rw [findByKey_foldl_insertKeyed, h]
    rfl
  have hmem := (findByKey_eq_some_imp key hfind).1
  have hperm := sortByKey_perm key
    (incoming.foldl (insertKeyed key) (buildKeyedMap key existing))
  constructor
  · exact hperm.mem_iff.mpr hmem
  · intro r hr hkey
    have hrM := hperm.mem_iff.mp hr
    have h2 : findByKey key x
        (incoming.foldl (insertKeyed key) (buildKeyedMap key existing)) = some r :=
      (findByKey_eq_some_iff key hM).mpr ⟨hrM, hkey⟩
    rw [hfind] at h2
    exact (Option.some.inj h2).symm

theorem mergeKeyed_idem {α κ : Type} [LinearOrder κ] [DecidableEq κ] (key : α → κ) (R : List α) :
    mergeKeyed key (mergeKeyed key [] R) R = mergeKeyed key [] R := by
  have hAnd : KeysNodup key (R.foldl (insertKeyed key) []) :=
    keysNodup_foldl_insertKeyed key R (by simp [KeysNodup])
  have hBnd : KeysNodup key
      (R.foldl (insertKeyed key) (buildKeyedMap key (mergeKeyed key [] R))) :=
    mergeKeyed_map_keysNodup key (mergeKeyed key [] R) R
  have hsame : ∀ x, findByKey key x
      (R.foldl (insertKeyed key) (buildKeyedMap key (mergeKeyed key [] R))) =
      findByKey key x (R.foldl (insertKeyed key) []) := by
    intro x
    rw [findByKey_foldl_insertKeyed, findByKey_foldl_insertKeyed]
    cases hlast : lastWithKey key R x with
    | some v => rfl
    | none =>
      simp only [optOr]
      have hnone : ∀ p ∈ mergeKeyed key [] R, key p ≠ x := by
        intro p hp
        have hpM : p ∈ R.foldl (insertKeyed key) [] :=
          (sortByKey_perm key (R.foldl (insertKeyed key) [])).mem_iff.mp hp
        rcases mem_foldl_insertKeyed key hpM with h1 | h1
        · cases h1
        · exact (lastWithKey_eq_none_iff key).mp hlast p h1
      rw [show buildKeyedMap key (mergeKeyed key [] R) =
            (mergeKeyed key [] R).foldl (insertKeyed key) [] from rfl,
        findByKey_foldl_insertKeyed,
        (lastWithKey_eq_none_iff key).mpr hnone]
      rfl
  have hperm := perm_of_keysNodup_of_findByKey_eq key hBnd hAnd hsame
  exact sortByKey_eq_of_perm key hperm hBnd

theorem mergeKeyed_self {α κ : Type} [LinearOrder κ] [DecidableEq κ] (key : α → κ) (X : List α) :
    mergeKeyed key X X = sortByKey key (buildKeyedMap key X) := by
  have hAnd : KeysNodup key (buildKeyedMap key X) :=
    keysNodup_foldl_insertKeyed key X (by simp [KeysNodup])
  have hBnd : KeysNodup key (X.foldl (insertKeyed key) (buildKeyedMap key X)) :=
    keysNodup_foldl_insertKeyed key X hAnd
  have hsame : ∀ x, findByKey key x (X.foldl (insertKeyed key) (buildKeyedMap key X)) =
      findByKey key x (buildKeyedMap key X) := by
    intro x
    rw [findByKey_foldl_insertKeyed,
      show buildKeyedMap key X = X.foldl (insertKeyed key) [] from rfl,
      findByKey_foldl_insertKeyed]
    cases lastWithKey key X x <;> rfl
  have hperm := perm_of_keysNodup_of_findByKey_eq key hBnd hAnd hsame
  exact sortByKey_eq_of_perm key hperm hBnd

/-! ### Claim theorems for the merge layer -/

theorem dataPointKey_lt_iff (a b : TrafficDataPoint) :
    dataPointKey a < dataPointKey b ↔
      a.date < b.date ∨ (a.date = b.date ∧ a.hour < b.hour) :=
  Prod.Lex.lt_iff (a.date, a.hour) (b.date, b.hour)

theorem dataPointKey_eq_iff (a b : TrafficDataPoint) :
    dataPointKey a = dataPointKey b ↔ a.date = b.date ∧ a.hour = b.hour := by
  constructor
  · intro h
    have h2 : (a.date, a.hour) = (b.date, b.hour) := toLex.injective h
    exact ⟨congrArg Prod.fst h2, congrArg Prod.snd h2⟩
  · rintro ⟨h1, h2⟩
    unfold dataPointKey
    rw [h1, h2]

/-- Concrete reading used to instantiate the theorems below (values from
the README's monthly-file example). -/
def samplePoint : TrafficDataPoint :=
  { date := "2024-06-01", hour := 0, uptime := 1, heavy := 2, car := 10, bike := 3,
    pedestrian := 5, heavy_lft := 1, car_lft := 8, bike_lft := 2, pedestrian_lft := 3,
    heavy_rgt := 1, car_rgt := 7, bike_rgt := 1, pedestrian_rgt := 2, direction := 1,
    timezone := "Europe/Berlin", v85 := some 36 }

/-- The same hour reported again with a different car count. -/
def samplePointRevised : TrafficDataPoint :=
  { samplePoint with car := 5 }

/-- C1: merging readings is idempotent — re-merging the batch `R` into the
store already built from `R` changes nothing, and merging a batch with
itself is exactly sort-of-dedupe. -/
theorem mergeReadings_idempotent (R : List TrafficDataPoint) :
    mergeReadings (mergeReadings [] R) R = mergeReadings [] R ∧
      mergeReadings R R = sortByKey dataPointKey (buildKeyedMap dataPointKey R) :=
  ⟨mergeKeyed_idem dataPointKey R, mergeKeyed_self dataPointKey R⟩

/-- C2: deduplication is last-write-wins by the natural key (date, hour):
when `q` is the last reading with its key in the incoming batch, exactly
one reading with that key survives the merge and it is `q` itself,
whatever the existing store held — selection is by position in the
incoming batch, never by a timestamp comparison. -/
theorem mergeReadings_last_write_wins (existing incoming : List TrafficDataPoint)
    (q : TrafficDataPoint)
    (h : lastWithKey dataPointKey incoming (dataPointKey q) = some q) :
    q ∈ mergeReadings existing incoming ∧
      ∀ r ∈ mergeReadings existing incoming,
        r.date = q.date → r.hour = q.hour → r = q := by
  rcases mergeKeyed_lww dataPointKey h with ⟨h1, h2⟩
  refine ⟨h1, fun r hr hd hh => h2 r hr ?_⟩
  exact (dataPointKey_eq_iff r q).mpr ⟨hd, hh⟩

/-- Witness for `mergeReadings_last_write_wins`: two readings sharing
(2024-06-01, hour 0) with car counts 10 and 5 — the incoming one (car 5)
is the single survivor. -/
theorem mergeReadings_last_write_wins_witness :
    lastWithKey dataPointKey [samplePointRevised] (dataPointKey samplePointRevised) =
        some samplePointRevised ∧
      (samplePointRevised ∈ mergeReadings [samplePoint] [samplePointRevised] ∧
        ∀ r ∈ mergeReadings [samplePoint] [samplePointRevised],
          r.date = samplePointRevised.date → r.hour = samplePointRevised.hour →
            r = samplePointRevised) :=
  ⟨by decide, mergeReadings_last_write_wins [samplePoint] [samplePointRevised]
    samplePointRevised (by decide)⟩

/-- C3: sort invariant — for every pair of input lists the merge output is
strictly ascending by (date, hour) and carries no duplicate (date, hour)
key. -/
theorem mergeReadings_sorted_nodup (existing incoming : List TrafficDataPoint) :
    (mergeReadings existing incoming).Pairwise
        (fun a b => a.date < b.date ∨ (a.date = b.date ∧ a.hour < b.hour)) ∧
      ((mergeReadings existing incoming).map dataPointKey).Nodup := by
  refine ⟨?_, mergeKeyed_keysNodup dataPointKey existing incoming⟩
  exact (mergeKeyed_pairwise_lt dataPointKey existing incoming).imp
    (fun hab => (dataPointKey_lt_iff _ _).mp hab)

/-- Daily entry with 30 cars on 2024-06-01, as in the spec's example. -/
def sampleDaily30 : DailyEntry :=
  { date := "2024-06-01", uptime := 1, heavy := 0, car := 30, bike := 0, pedestrian := 0,
    heavy_lft := 0, car_lft := 0, bike_lft := 0, pedestrian_lft := 0, heavy_rgt := 0,
    car_rgt := 0, bike_rgt := 0, pedestrian_rgt := 0, hours_covered := 3 }

/-- Recomputed daily entry for the same date with 5 cars. -/
def sampleDaily5 : DailyEntry :=
  { sampleDaily30 with car := 5, hours_covered := 1 }

/-- C4: daily merge is replace-not-sum — when `e` is the last incoming
entry for its date, the merged file holds exactly `e` for that date (the
complete recomputed entry wins; counts of the existing entry are never
summed into it). -/
theorem mergeDailyEntries_replaces_wholesale (existing incoming : List DailyEntry)
    (e : DailyEntry) (h : lastWithKey dailyKey incoming e.date = some e) :
    e ∈ mergeDailyEntries existing incoming ∧
      ∀ r ∈ mergeDailyEntries existing incoming, r.date = e.date → r = e := by
  have h' : lastWithKey dailyKey incoming (dailyKey e) = some e := h
  rcases mergeKeyed_lww dailyKey h' with ⟨h1, h2⟩
  exact ⟨h1, fun r hr hd => h2 r hr hd⟩

/-- Witness for `mergeDailyEntries_replaces_wholesale`: an existing entry
with car = 30 merged with an incoming entry for the same date with
car = 5 yields car = 5 for that date, not 35. -/
theorem mergeDailyEntries_replaces_wholesale_witness :
    lastWithKey dailyKey [sampleDaily5] sampleDaily5.date = some sampleDaily5 ∧
      (sampleDaily5 ∈ mergeDailyEntries [sampleDaily30] [sampleDaily5] ∧
        ∀ r ∈ mergeDailyEntries [sampleDaily30] [sampleDaily5],
          r.date = sampleDaily5.date → r = sampleDaily5) ∧
      mergeDailyEntries [sampleDaily30] [sampleDaily5] = [sampleDaily5] ∧
      sampleDaily5.car = 5 :=
  ⟨by decide,
    mergeDailyEntries_replaces_wholesale [sampleDaily30] [sampleDaily5]
      sampleDaily5 (by decide),
    by decide, by decide⟩

/-! ### Claim theorems for the Storage layer -/

theorem foldl_add_eq_sum {γ : Type} (g : γ → Nat) (l : List γ) :
    ∀ n : Nat, l.foldl (fun total x => total + g x) n = n + (l.map g).sum := by
  induction l with
  | nil => intro n; simp
  | cons a l ih =>
    intro n
    simp only [List.foldl_cons, List.map_cons, List.sum_cons, ih]
    omega

/-- C8: total count recomputation — `getTotalHourlyDataPoints` returns
exactly the sum of `data.length` over the monthly files stored in the
device's hourly directory, whatever sequence of runs produced them, and
returns 0 when that directory does not exist (absence is not an error). -/
theorem getTotalHourlyDataPoints_eq_sum (fs : FileSystem) (deviceId : String) :
    getTotalHourlyDataPoints fs deviceId =
      if fs.hourlyDirs.contains deviceId then
        ((fs.hourlyFiles.filter (fun f => decide (f.1.1 = deviceId))).map
          (fun f => f.2.data.length)).sum
      else 0 := by
  unfold getTotalHourlyDataPoints collectHourlyJsonFiles
  cases hc : fs.hourlyDirs.contains deviceId
  · simp [hc]
  · simp only [hc, if_true]
    have h2 := foldl_add_eq_sum
      (fun f : (String × String) × MonthlyData => f.2.data.length)
      (fs.hourlyFiles.filter (fun f => decide (f.1.1 = deviceId))) 0
    simpa using h2

theorem legacy_path_ne_hourly_path (dataDir deviceId month : String) :
    getLegacyMonthlyFilePath dataDir deviceId month ≠
      getHourlyFilePath dataDir deviceId month := by
  intro h
  have hl := congrArg String.length h
  simp only [getLegacyMonthlyFilePath, getHourlyFilePath, getDeviceDirectory,
    String.length_append] at hl
  have h1 : ("/" : String).length = 1 := rfl
  have h6 : hourlyDirName.length = 6 := rfl
  rw [h1, h6] at hl
  omega

theorem fsGet_fsErase_self {β : Type} (files : List ((String × String) × β))
    (k : String × String) : fsGet (fsErase files k) k = none := by
  induction files with
  | nil => rfl
  | cons f rest ih =>
    by_cases hf : f.1 = k
    · simpa [fsErase, List.filter_cons, hf] using ih
    · simp [fsErase, List.filter_cons, hf, fsGet, List.find?_cons] at ih ⊢

/-- C9: legacy two-tier lookup and migration — `loadMonthlyData` returns
the file at the current hourly location when present and falls back to the
legacy location only otherwise; a failed merged write raises the wrapped
error and leaves the file system (legacy file included) untouched, while a
successful write is followed by the deletion of the legacy file. -/
theorem monthly_two_tier_lookup_and_migration (dataDir : String) (fs : FileSystem)
    (deviceId month : String) (md : MonthlyData) (now : String) :
    (∀ f, fsGet fs.hourlyFiles (deviceId, month) = some f →
        loadMonthlyData fs deviceId month = some f) ∧
      (fsGet fs.hourlyFiles (deviceId, month) = none →
        loadMonthlyData fs deviceId month = fsGet fs.legacyFiles (deviceId, month)) ∧
      ((saveMonthlyData dataDir fs deviceId md now false).1 =
          Except.error ("Failed to save monthly data: write failed for " ++ deviceId) ∧
        (saveMonthlyData dataDir fs deviceId md now false).2 = fs) ∧
      fsGet ((saveMonthlyData dataDir fs deviceId md now true).2).legacyFiles
        (deviceId, md.month) = none := by
  refine ⟨?_, ?_, ⟨rfl, rfl⟩, ?_⟩
  · intro f h
    unfold loadMonthlyData
    rw [h]
  · intro h
    unfold loadMonthlyData
    rw [h]
  · have hne : ¬ (getLegacyMonthlyFilePath dataDir deviceId md.month =
        getHourlyFilePath dataDir deviceId md.month) :=
      legacy_path_ne_hourly_path dataDir deviceId md.month
    simp only [saveMonthlyData, removeLegacyMonthlyFile, if_true, if_neg hne]
    exact fsGet_fsErase_self fs.legacyFiles (deviceId, md.month)

/-! ### Lemmas about the collector -/

/-- Success test on an `Except` value. -/
def exceptOk {ε γ : Type} : Except ε γ → Bool
  | Except.ok _ => true
  | Except.error _ => false

theorem insertGrouped_sizes {α κ : Type} [DecidableEq κ] (key : α → κ)
    (p : α) : ∀ groups : List (κ × List α),
    ((insertGrouped key groups p).map (fun g => g.2.length)).sum =
      (groups.map (fun g => g.2.length)).sum + 1 := by
  intro groups
  induction groups with
  | nil => simp [insertGrouped]
  | cons g rest ih =>
    obtain ⟨m, ps⟩ := g
    by_cases h : m = key p
    · simp [insertGrouped, h]
      omega
    · simp [insertGrouped, h, ih]
      omega

theorem foldl_insertGrouped_sizes {α κ : Type} [DecidableEq κ] (key : α → κ)
    (xs : List α) : ∀ groups : List (κ × List α),
    (((xs.foldl (insertGrouped key) groups)).map (fun g => g.2.length)).sum =
      (groups.map (fun g => g.2.length)).sum + xs.length := by
  induction xs with
  | nil => intro groups; simp
  | cons x xs ih =>
    intro groups
    simp only [List.foldl_cons, ih, insertGrouped_sizes, List.length_cons]
    omega

theorem groupByMonth_sizes (parseDate : String → Option Int)
    (pts : List TrafficDataPoint) :
    ((groupByMonth parseDate pts).map (fun g => g.2.length)).sum =
      (pts.filter (hasParseableDate parseDate)).length := by
  have h := foldl_insertGrouped_sizes monthKey
    (pts.filter (hasParseableDate parseDate)) []
  simpa [groupByMonth, groupByKey] using h

theorem saveDeviceDataLoop_fst_ok (env : CollectorEnv) (dataDir deviceId : String)
    (hw : ∀ d m, env.monthlyWriteOk d m = true)
    (hd : ∀ d m, env.dailyWriteOk d m = true) :
    ∀ (groups : List (String × List TrafficDataPoint)) (fs : FileSystem) (total : Nat),
    (saveDeviceDataLoop env dataDir deviceId fs total groups).1 =
      Except.ok (total + (groups.map (fun g => g.2.length)).sum) := by
  intro groups
  induction groups with
  | nil => intro fs total; simp [saveDeviceDataLoop]
  | cons g rest ih =>
    intro fs total
    obtain ⟨month, monthData⟩ := g
    simp only [saveDeviceDataLoop, hw, hd, saveMonthlyData, saveDailyData, if_true]
    rw [ih]
    simp [Nat.add_assoc]

theorem saveDeviceData_fst_ok (env : CollectorEnv) (dataDir deviceId : String)
    (fs : FileSystem) (pts : List TrafficDataPoint)
    (hw : ∀ d m, env.monthlyWriteOk d m = true)
    (hd : ∀ d m, env.dailyWriteOk d m = true) :
    (saveDeviceData env dataDir deviceId fs pts).1 =
      Except.ok (pts.filter (hasParseableDate env.parseDate)).length := by
  unfold saveDeviceData
  rw [saveDeviceDataLoop_fst_ok env dataDir deviceId hw hd
    (groupByMonth env.parseDate pts) fs 0]
  rw [groupByMonth_sizes]
  simp

theorem collectSingleDevice_deviceId (env : CollectorEnv) (dataDir : String)
    (fs : FileSystem) (device : DeviceConfig) :
    (collectSingleDevice env dataDir fs device).1.deviceId = device.id := by
  unfold collectSingleDevice
  cases env.fetch device.id with
  | error e => rfl
  | ok pts =>
    by_cases h : pts.length = 0
    · simp only [if_pos h]
    · simp only [if_neg h]
      cases hsd : saveDeviceData env dataDir device.id fs pts with
      | mk r fs1 => cases r <;> rfl

theorem collectSingleDevice_success (env : CollectorEnv) (dataDir : String)
    (fs : FileSystem) (device : DeviceConfig)
    (hw : ∀ d m, env.monthlyWriteOk d m = true)
    (hd : ∀ d m, env.dailyWriteOk d m = true) :
    (collectSingleDevice env dataDir fs device).1.success =
      exceptOk (env.fetch device.id) := by
  unfold collectSingleDevice
  cases hf : env.fetch device.id with
  | error e => rfl
  | ok pts =>
    by_cases h : pts.length = 0
    · simp only [if_pos h]; rfl
    · simp only [if_neg h]
      cases hsd : saveDeviceData env dataDir device.id fs pts with
      | mk r fs1 =>
        have hr : r = Except.ok (pts.filter (hasParseableDate env.parseDate)).length := by
          have := saveDeviceData_fst_ok env dataDir device.id fs pts hw hd
          rw [hsd] at this
          exact this
        rw [hr]
        rfl

theorem collectSingleDevice_empty_fetch (env : CollectorEnv) (dataDir : String)
    (fs : FileSystem) (device : DeviceConfig)
    (h : env.fetch device.id = Except.ok []) :
    collectSingleDevice env dataDir fs device =
      ({ deviceId := device.id, success := true, dataPointsCollected := 0,
         lastUpdated := none, error := none }, fs) := by
  unfold collectSingleDevice
  rw [h]
  rfl

theorem collectLoop_results_length (env : CollectorEnv) (dataDir : String)
    (em : List DeviceMetadata) :
    ∀ (devices : List DeviceConfig) (fs : FileSystem),
    (collectLoop env dataDir em fs devices).1.length = devices.length := by
  intro devices
  induction devices with
  | nil => intro fs; rfl
  | cons device rest ih =>
    intro fs
    simp only [collectLoop, List.length_cons, ih]

theorem collectLoop_metas_length (env : CollectorEnv) (dataDir : String)
    (em : List DeviceMetadata) :
    ∀ (devices : List DeviceConfig) (fs : FileSystem),
    (collectLoop env dataDir em fs devices).2.1.length = devices.length := by
  intro devices
  induction devices with
  | nil => intro fs; rfl
  | cons device rest ih =>
    intro fs
    simp only [collectLoop, List.length_cons, ih]

theorem collectLoop_results_shape (env : CollectorEnv) (dataDir : String)
    (em : List DeviceMetadata)
    (hw : ∀ d m, env.monthlyWriteOk d m = true)
    (hd : ∀ d m, env.dailyWriteOk d m = true) :
    ∀ (devices : List DeviceConfig) (fs : FileSystem),
    ((collectLoop env dataDir em fs devices).1.map (fun r => (r.deviceId, r.success))) =
      devices.map (fun d => (d.id, exceptOk (env.fetch d.id))) := by
  intro devices
  induction devices with
  | nil => intro fs; rfl
  | cons device rest ih =>
    intro fs
    simp only [collectLoop, List.map_cons]
    rw [collectSingleDevice_deviceId, collectSingleDevice_success env dataDir fs device hw hd,
      ih]

theorem collectLoop_failed_count (env : CollectorEnv) (dataDir : String)
    (em : List DeviceMetadata)
    (hw : ∀ d m, env.monthlyWriteOk d m = true)
    (hd : ∀ d m, env.dailyWriteOk d m = true) :
    ∀ (devices : List DeviceConfig) (fs : FileSystem),
    ((collectLoop env dataDir em fs devices).1.filter (fun r => !r.success)).length =
      (devices.filter (fun d => !exceptOk (env.fetch d.id))).length := by
  intro devices
  induction devices with
  | nil => intro fs; rfl
  | cons device rest ih =>
    intro fs
    simp only [collectLoop, List.filter_cons]
    rw [collectSingleDevice_success env dataDir fs device hw hd]
    cases hok : exceptOk (env.fetch device.id) <;> simp [ih]

theorem filter_length_pos_iff {γ : Type} (p : γ → Bool) (l : List γ) :
    0 < (l.filter p).length ↔ ∃ x ∈ l, p x = true := by
  induction l with
  | nil => simp
  | cons a l ih =>
    simp only [List.filter_cons]
    cases hpa : p a
    · simp [hpa, ih]
    · simp [hpa]

/-- C5: per-device isolation — with every storage write succeeding, each
configured device gets exactly one result, in configured order: devices
whose fetch fails are marked failed, the rest successful, and the
summary's `failedDevices` counts exactly the fetch-failing devices; one
device's failure never aborts the others. -/
theorem collectAllDevices_isolates_failures (env : CollectorEnv) (dataDir : String)
    (fs : FileSystem) (devices : List DeviceConfig)
    (hw : ∀ d m, env.monthlyWriteOk d m = true)
    (hd : ∀ d m, env.dailyWriteOk d m = true) :
    ((collectAllDevices env dataDir fs devices).summary.results.map
        (fun r => (r.deviceId, r.success))) =
        devices.map (fun d => (d.id, exceptOk (env.fetch d.id))) ∧
      (collectAllDevices env dataDir fs devices).summary.failedDevices =
        (devices.filter (fun d => !exceptOk (env.fetch d.id))).length ∧
      (collectAllDevices env dataDir fs devices).summary.totalDevices = devices.length := by
  refine ⟨?_, ?_, ?_⟩
  · exact collectLoop_results_shape env dataDir (loadDeviceMetadata fs) hw hd devices fs
  · exact collectLoop_failed_count env dataDir (loadDeviceMetadata fs) hw hd devices fs
  · exact collectLoop_results_length env dataDir (loadDeviceMetadata fs) devices fs

/-- Devices configured for the concrete runs below. -/
def sampleDevices : List DeviceConfig :=
  [{ id := "1", name := "one", location := "A" },
   { id := "2", name := "two", location := "B" },
   { id := "3", name := "three", location := "C" }]

/-- Environment in which device 2's fetch always fails and every other
fetch returns an empty batch; all writes succeed. -/
def sampleEnv : CollectorEnv :=
  { fetch := fun id =>
      if id = "2" then Except.error "API Error (500): boom" else Except.ok []
    monthlyWriteOk := fun _ _ => true
    dailyWriteOk := fun _ _ => true
    parseDate := fun _ => none
    now := "2024-07-01T00:00:00.000Z" }

/-- Empty data directory. -/
def emptyFs : FileSystem :=
  { hourlyDirs := [], hourlyFiles := [], legacyFiles := [], dailyFiles := [],
    metadata := none, landingPageGenerated := false }

/-- Witness for `collectAllDevices_isolates_failures`: three devices where
device 2's fetch always fails — devices 1 and 3 still succeed and the
summary reports one failed device out of three. -/
theorem collectAllDevices_isolates_failures_witness :
    ((collectAllDevices sampleEnv "./docs/data" emptyFs sampleDevices).summary.results.map
        (fun r => (r.deviceId, r.success))) =
        [("1", true), ("2", false), ("3", true)] ∧
      (collectAllDevices sampleEnv "./docs/data" emptyFs sampleDevices).summary.failedDevices
        = 1 ∧
      (collectAllDevices sampleEnv "./docs/data" emptyFs sampleDevices).summary.totalDevices
        = 3 := by
  obtain ⟨h1, h2, h3⟩ := collectAllDevices_isolates_failures sampleEnv "./docs/data"
    emptyFs sampleDevices (fun _ _ => rfl) (fun _ _ => rfl)
  refine ⟨?_, ?_, ?_⟩
  · rw [h1]; decide
  · rw [h2]; decide
  · rw [h3]; decide

/-- C6: aggregate run failure — the outcome of a run is an error exactly
when some device's result is failed, and in both cases the final state
already holds the full metadata list (one entry per configured device) and
the regenerated landing page: the failure signal comes only after those
persist steps. -/
theorem collectAllDevices_aggregate_failure (env : CollectorEnv) (dataDir : String)
    (fs : FileSystem) (devices : List DeviceConfig) :
    (exceptOk (collectAllDevices env dataDir fs devices).outcome = false ↔
        ∃ r ∈ (collectAllDevices env dataDir fs devices).summary.results,
          r.success = false) ∧
      (collectAllDevices env dataDir fs devices).finalFs.metadata =
        some (collectLoop env dataDir (loadDeviceMetadata fs) fs devices).2.1 ∧
      (collectLoop env dataDir (loadDeviceMetadata fs) fs devices).2.1.length =
        devices.length ∧
      (collectAllDevices env dataDir fs devices).finalFs.landingPageGenerated = true := by
  refine ⟨?_, rfl, collectLoop_metas_length env dataDir (loadDeviceMetadata fs) devices fs,
    rfl⟩
  have hout : (collectAllDevices env dataDir fs devices).outcome =
      if (collectAllDevices env dataDir fs devices).summary.failedDevices > 0 then
        Except.error ("Collection completed with " ++
          toString (collectAllDevices env dataDir fs devices).summary.failedDevices ++
          " error(s)")
      else Except.ok (collectAllDevices env dataDir fs devices).summary := rfl
  rw [hout]
  by_cases hpos : (collectAllDevices env dataDir fs devices).summary.failedDevices > 0
  · rw [if_pos hpos]
    simp only [exceptOk]
    constructor
    · intro _
      have h2 : 0 < ((collectAllDevices env dataDir fs devices).summary.results.filter
          (fun r => !r.success)).length := hpos
      rcases (filter_length_pos_iff _ _).mp h2 with ⟨r, hr, hpr⟩
      exact ⟨r, hr, by simpa using hpr⟩
    · intro _
      trivial
  · rw [if_neg hpos]
    simp only [exceptOk]
    constructor
    · intro h
      exact absurd h (by decide)
    · rintro ⟨r, hr, hrs⟩
      exfalso
      apply hpos
      exact (filter_length_pos_iff _ _).mpr ⟨r, hr, by simp [hrs]⟩

theorem collectLoop_lastUpdated_fallback (env : CollectorEnv) (dataDir : String)
    (em : List DeviceMetadata) :
    ∀ (devices : List DeviceConfig) (fs : FileSystem) (i : Nat) (d : DeviceConfig)
      (prior : DeviceMetadata),
      devices[i]? = some d →
      env.fetch d.id = Except.ok [] →
      previousMetadataById em d.id = some prior →
      ∃ m, (collectLoop env dataDir em fs devices).2.1[i]? = some m ∧
        m.lastUpdated = prior.lastUpdated := by
  intro devices
  induction devices with
  | nil =>
    intro fs i d prior hdev
    simp at hdev
  | cons device rest ih =>
    intro fs i d prior hdev hfetch hprior
    have hcons : (collectLoop env dataDir em fs (device :: rest)).2.1 =
        mkDeviceMetadata env em device (collectSingleDevice env dataDir fs device).1
            (getTotalHourlyDataPoints (collectSingleDevice env dataDir fs device).2
              device.id) ::
          (collectLoop env dataDir em (collectSingleDevice env dataDir fs device).2
            rest).2.1 := rfl
    cases i with
    | zero =>
      rw [List.getElem?_cons_zero] at hdev
      have hdz : d = device := (Option.some.inj hdev).symm
      subst hdz
      rw [hcons, List.getElem?_cons_zero]
      refine ⟨_, rfl, ?_⟩
      rw [collectSingleDevice_empty_fetch env dataDir fs d hfetch]
      simp [mkDeviceMetadata, hprior]
    | succ i =>
      rw [List.getElem?_cons_succ] at hdev
      rw [hcons, List.getElem?_cons_succ]
      exact ih (collectSingleDevice env dataDir fs device).2 i d prior hdev hfetch hprior

/-- C7: metadata lastUpdated fallback — a device whose run fetched zero
readings gets a metadata record carrying the `lastUpdated` of the prior
stored metadata for that device, not the current time. -/
theorem metadata_lastUpdated_fallback (env : CollectorEnv) (dataDir : String)
    (fs : FileSystem) (devices : List DeviceConfig) (i : Nat) (d : DeviceConfig)
    (prior : DeviceMetadata)
    (hdev : devices[i]? = some d)
    (hfetch : env.fetch d.id = Except.ok [])
    (hprior : previousMetadataById (loadDeviceMetadata fs) d.id = some prior) :
    ∃ metas m, (collectAllDevices env dataDir fs devices).finalFs.metadata = some metas ∧
      metas[i]? = some m ∧ m.lastUpdated = prior.lastUpdated := by
  rcases collectLoop_lastUpdated_fallback env dataDir (loadDeviceMetadata fs) devices fs
    i d prior hdev hfetch hprior with ⟨m, hm, hlu⟩
  exact ⟨(collectLoop env dataDir (loadDeviceMetadata fs) fs devices).2.1, m, rfl, hm, hlu⟩

/-- Prior metadata record for device 1, with a lastUpdated value distinct
from the environment's current time. -/
def priorMeta : DeviceMetadata :=
  { id := "1", name := "one", location := "A",
    lastUpdated := "2024-05-31T23:00:00.000Z", totalDataPoints := 7 }

/-- Data directory already holding metadata for device 1. -/
def fsWithMetadata : FileSystem :=
  { emptyFs with metadata := some [priorMeta] }

/-- Witness for `metadata_lastUpdated_fallback`: device 1 fetches zero
readings, so its new metadata record keeps the stored lastUpdated
2024-05-31T23:00:00.000Z instead of the run's current time. -/
theorem metadata_lastUpdated_fallback_witness :
    ∃ metas m,
      (collectAllDevices sampleEnv "./docs/data" fsWithMetadata
        [{ id := "1", name := "one", location := "A" }]).finalFs.metadata = some metas ∧
      metas[0]? = some m ∧ m.lastUpdated = priorMeta.lastUpdated :=
  metadata_lastUpdated_fallback sampleEnv "./docs/data" fsWithMetadata
    [{ id := "1", name := "one", location := "A" }] 0
    { id := "1", name := "one", location := "A" } priorMeta rfl rfl (by decide)

/-- C10 (amended): a successful device's `dataPointsCollected` equals the
sum of its month-group sizes — the number of freshly fetched readings with
a parseable date — regardless of what storage already held, so readings
that merely overwrote stored ones are still counted while unparseable-date
readings are skipped from grouping; a fetch of zero readings yields a
successful result with zero points and leaves the file system untouched
(no monthly or daily file written). -/
theorem collectSingleDevice_counts_fetched_batch (env : CollectorEnv) (dataDir : String)
    (fs : FileSystem) (device : DeviceConfig) (pts : List TrafficDataPoint)
    (hw : ∀ d m, env.monthlyWriteOk d m = true)
    (hd : ∀ d m, env.dailyWriteOk d m = true)
    (hfetch : env.fetch device.id = Except.ok pts) :
    (collectSingleDevice env dataDir fs device).1.success = true ∧
      (collectSingleDevice env dataDir fs device).1.dataPointsCollected =
        ((groupByMonth env.parseDate pts).map (fun g => g.2.length)).sum ∧
      (collectSingleDevice env dataDir fs device).1.dataPointsCollected =
        (pts.filter (hasParseableDate env.parseDate)).length ∧
      (pts = [] → collectSingleDevice env dataDir fs device =
        ({ deviceId := device.id, success := true, dataPointsCollected := 0,
           lastUpdated := none, error := none }, fs)) := by
  have hcount : (collectSingleDevice env dataDir fs device).1.dataPointsCollected =
      (pts.filter (hasParseableDate env.parseDate)).length := by
    unfold collectSingleDevice
    rw [hfetch]
    by_cases h : pts.length = 0
    · simp only [if_pos h]
      have hnil : pts = [] := List.length_eq_zero.mp h
      subst hnil
      rfl
    · simp only [if_neg h]
      cases hsd : saveDeviceData env dataDir device.id fs pts with
      | mk r fs1 =>
        have hr : r = Except.ok (pts.filter (hasParseableDate env.parseDate)).length := by
          have h2 := saveDeviceData_fst_ok env dataDir device.id fs pts hw hd
          rw [hsd] at h2
          exact h2
        rw [hr]
  refine ⟨?_, ?_, hcount, ?_⟩
  · rw [collectSingleDevice_success env dataDir fs device hw hd, hfetch]
    rfl
  · rw [hcount, groupByMonth_sizes]
  · intro hpts
    exact collectSingleDevice_empty_fetch env dataDir fs device (hpts ▸ hfetch)

/-- Environment whose every fetch returns the single sample reading and
whose date parser (inherited from `sampleEnv`) rejects every date. -/
def sampleEnvFetchOne : CollectorEnv :=
  { sampleEnv with fetch := fun _ => Except.ok [samplePoint] }

/-- Counterexample to the unamended reading of the count property: one
fetched reading whose date the run's date parser cannot parse — the device
still succeeds but reports 0 collected points while the fetched batch has
size 1, because the unparseable-date reading is skipped from grouping
(log-and-skip, spec 4.1 edge cases and 7). -/
theorem collectSingleDevice_counts_counterexample :
    (collectSingleDevice sampleEnvFetchOne "./docs/data" emptyFs
        { id := "1", name := "one", location := "A" }).1.success = true ∧
      (collectSingleDevice sampleEnvFetchOne "./docs/data" emptyFs
        { id := "1", name := "one", location := "A" }).1.dataPointsCollected = 0 ∧
      ¬((collectSingleDevice sampleEnvFetchOne "./docs/data" emptyFs
        { id := "1", name := "one", location := "A" }).1.dataPointsCollected =
        [samplePoint].length) := by
  decide

/-- Environment whose every fetch returns the single sample reading and
whose date parser accepts every date. -/
def sampleEnvParseAll : CollectorEnv :=
  { sampleEnv with fetch := fun _ => Except.ok [samplePoint], parseDate := fun _ => some 0 }

/-- Witness for `collectSingleDevice_counts_fetched_batch`: with a parser
accepting every date, the device reports exactly the one fetched reading
(whose month-group sizes sum to the full batch length 1), and the
zero-fetch clause holds vacuously for this non-empty batch. -/
theorem collectSingleDevice_counts_fetched_batch_witness :
    ((collectSingleDevice sampleEnvParseAll "./docs/data" emptyFs
        { id := "1", name := "one", location := "A" }).1.success = true ∧
      (collectSingleDevice sampleEnvParseAll "./docs/data" emptyFs
        { id := "1", name := "one", location := "A" }).1.dataPointsCollected =
        ((groupByMonth sampleEnvParseAll.parseDate [samplePoint]).map
          (fun g => g.2.length)).sum ∧
      (collectSingleDevice sampleEnvParseAll "./docs/data" emptyFs
        { id := "1", name := "one", location := "A" }).1.dataPointsCollected =
        ([samplePoint].filter (hasParseableDate sampleEnvParseAll.parseDate)).length ∧
      ([samplePoint] = [] →
        collectSingleDevice sampleEnvParseAll "./docs/data" emptyFs
          { id := "1", name := "one", location := "A" } =
          ({ deviceId := "1", success := true, dataPointsCollected := 0,
             lastUpdated := none, error := none }, emptyFs))) ∧
      ([samplePoint].filter (hasParseableDate sampleEnvParseAll.parseDate)).length = 1 :=
  ⟨collectSingleDevice_counts_fetched_batch sampleEnvParseAll "./docs/data" emptyFs
    { id := "1", name := "one", location := "A" } [samplePoint]
    (fun _ _ => rfl) (fun _ _ => rfl) rfl, by decide⟩

/-- Monthly file at the current hourly location. -/
def sampleMonthlyH : MonthlyData :=
  { device_id := "9000008311", month := "2024-06", data := [samplePoint],
    lastUpdated := "2024-07-01T00:00:00.000Z" }

/-- Older copy of the monthly file at the legacy location. -/
def sampleMonthlyL : MonthlyData :=
  { sampleMonthlyH with lastUpdated := "2024-06-15T00:00:00.000Z" }

/-- Data directory holding both the current and the legacy monthly file
for device 9000008311 and month 2024-06. -/
def fsWithBoth : FileSystem :=
  { hourlyDirs := ["9000008311"]
    hourlyFiles := [(("9000008311", "2024-06"), sampleMonthlyH)]
    legacyFiles := [(("9000008311", "2024-06"), sampleMonthlyL)]
    dailyFiles := []
    metadata := none
    landingPageGenerated := false }

/-- Data directory holding only the legacy monthly file. -/
def fsLegacyOnly : FileSystem :=
  { fsWithBoth with hourlyFiles := [] }

/-- Witness for `monthly_two_tier_lookup_and_migration`: with both files
present the current one is returned; with only the legacy file present the
legacy one is returned; a failed write leaves the state unchanged and a
successful write removes the legacy file. -/
theorem monthly_two_tier_lookup_and_migration_witness :
    loadMonthlyData fsWithBoth "9000008311" "2024-06" = some sampleMonthlyH ∧
      loadMonthlyData fsLegacyOnly "9000008311" "2024-06" = some sampleMonthlyL ∧
      (saveMonthlyData "./docs/data" fsLegacyOnly "9000008311" sampleMonthlyH
        "2024-07-02T00:00:00.000Z" false).2 = fsLegacyOnly ∧
      fsGet ((saveMonthlyData "./docs/data" fsLegacyOnly "9000008311" sampleMonthlyH
          "2024-07-02T00:00:00.000Z" true).2).legacyFiles
        ("9000008311", sampleMonthlyH.month) = none := by
  refine ⟨?_, ?_, ?_, ?_⟩
  · exact (monthly_two_tier_lookup_and_migration "./docs/data" fsWithBoth "9000008311"
      "2024-06" sampleMonthlyH "2024-07-02T00:00:00.000Z").1 sampleMonthlyH (by decide)
  · have h := (monthly_two_tier_lookup_and_migration "./docs/data" fsLegacyOnly "9000008311"
      "2024-06" sampleMonthlyH "2024-07-02T00:00:00.000Z").2.1 (by decide)
    rw [h]
    decide
  · exact (monthly_two_tier_lookup_and_migration "./docs/data" fsLegacyOnly "9000008311"
      "2024-06" sampleMonthlyH "2024-07-02T00:00:00.000Z").2.2.1.2
  · exact (monthly_two_tier_lookup_and_migration "./docs/data" fsLegacyOnly "9000008311"
      "2024-06" sampleMonthlyH "2024-07-02T00:00:00.000Z").2.2.2
